import Mathlib

/-!
# Verification of the fonticon static-site build pipeline

Shallow embedding of `src/scripts/build-site.jsx`: the template-expansion
step (`iconsPages`), the content-loader file-name computation
(`readMarkdownFile`), the `Icon` and `CodeBlock` components, the `PageWrapper`
shell and the static renderer.  Pure data (the icon catalog `icons.json`, the
package descriptor `package.json`) is passed in as parameters; I/O boundaries
(file reads and writes) are outside the embedded fragment, which is exactly
the pure data flow between them.
-/

namespace Fonticon

/-- One entry of the icon catalog (`icons.json`): a record with an SVG path
string, looked up as `icons[name].path` by the `Icon` component. -/
structure IconRecord where
  path : String
deriving DecidableEq, Repr

/-- A metadata value as it can appear in a page's front-matter object:
either a string (front-matter fields, the computed `title`) or a whole icon
record (the computed `icon` field of a derived page). -/
inductive MetaValue where
  | str : String → MetaValue
  | icon : IconRecord → MetaValue
deriving DecidableEq, Repr

/-- The icon catalog: an ordered string-keyed mapping, mirroring the JS
object loaded from `icons.json` (`Object.keys` iterates in declared order). -/
abbrev Catalog := List (String × IconRecord)

/-- A page as produced by `readMarkdownFile`: front-matter `data`, markdown
`content`, and the output `fileName` (`basename(file, ".mdx") + ".html"`). -/
structure Page where
  data : List (String × MetaValue)
  content : String
  fileName : String
deriving DecidableEq, Repr

/-- `getBuildInfo()` result: `{time: {formatted}}`. -/
structure BuildInfo where
  timeFormatted : String
deriving DecidableEq, Repr

/-- The fields of `package.json` the script reads (`pkg.version`,
`pkg.repository`, `pkg.repository.url`). -/
structure PkgInfo where
  version : String
  repositoryUrl : String
deriving DecidableEq, Repr

/-! ## JS object update and lookup

Front-matter objects are modelled as association lists without duplicate
keys (JS objects cannot hold duplicate keys).  `setKey` models writing one
key of an object literal: an existing key keeps its position and gets the
new value, a fresh key is appended — exactly the JS spread-then-override
`{...template.data, title: ..., icon: ...}` semantics. -/

/-- Set key `k` to `v` in an object, replacing in place or appending. -/
def setKey : List (String × MetaValue) → String → MetaValue → List (String × MetaValue)
  | [], k, v => [(k, v)]
  | e :: rest, k, v => if e.1 = k then (k, v) :: rest else e :: setKey rest k v

/-- Read key `k` of an object (`obj[k]`); `none` models `undefined`. -/
def getKey (d : List (String × MetaValue)) (k : String) : Option MetaValue :=
  (d.find? (fun e => e.1 = k)).map (fun e => e.2)

/-! ## Template expansion (`build-site.jsx` lines 161–176) -/

/-- JS `s.startsWith(pre)`: `pre` is a prefix of `s`. -/
def strStartsWith (s pre : String) : Bool :=
  pre.toList.isPrefixOf s.toList

/-- `page.fileName.startsWith("[")`: the template-page marker. -/
def isTemplate (p : Page) : Bool :=
  strStartsWith p.fileName "["

/-- One element of `iconsPages`: the derived page for catalog entry
`(name, rec)`, built from the template page `tp`:
`{data: {...tp.data, title: name, icon: rec}, content: tp.content,
fileName: name + ".html"}`. -/
def derivePage (tp : Page) (name : String) (rec : IconRecord) : Page :=
  { data := setKey (setKey tp.data "title" (MetaValue.str name)) "icon" (MetaValue.icon rec)
    content := tp.content
    fileName := name ++ ".html" }

/-- The `.then(pages => ...)` stage: find the template page, build
`iconsPages`, and return the non-template pages followed by the derived
pages.  When no template page exists the JS code leaves `templatePage`
`undefined`; the derivation callback then throws a `TypeError` on
`templatePage.data` — but only if it runs at all, i.e. only if the catalog
is non-empty.  `none` models that thrown rejection. -/
def expandPages (icons : Catalog) (pages : List Page) : Option (List Page) :=
  match pages.find? isTemplate with
  | some tp =>
      some (pages.filter (fun p => !isTemplate p) ++
            icons.map (fun e => derivePage tp e.1 e.2))
  | none =>
      if icons.isEmpty then some (pages.filter (fun p => !isTemplate p))
      else none

/-! ## Content-loader file names (`readMarkdownFile`, lines 133–143)

`path.extname` and `path.basename(file, ext)` are modelled for plain
directory-entry names (no path separators), following Node's semantics:
the extension starts at the rightmost dot, except that a dot at position 0
starts no extension and the name `".."` has none. -/

/-- The suffix of the character list starting at its rightmost dot
(`none` when there is no dot). -/
def extTail : List Char → Option (List Char)
  | [] => none
  | c :: rest =>
    match extTail rest with
    | some e => some e
    | none => if c = '.' then some (c :: rest) else none

/-- Node `path.extname` for a plain file name: the substring from the last
dot, or `""` when there is no dot, the only dot is the leading character,
or the name is `".."`. -/
def extname (s : String) : String :=
  match s.toList with
  | [] => ""
  | c :: rest =>
    if c :: rest = ['.', '.'] then ""
    else
      match extTail rest with
      | some e => String.mk e
      | none => ""

/-- Node `path.basename(file, ext)` for a plain file name: drops `ext` when
it is a proper suffix of the name, otherwise returns the name unchanged. -/
def basenameExt (file ext : String) : String :=
  if file ≠ ext ∧ ext.toList.isSuffixOf file.toList then
    String.mk (file.toList.take (file.toList.length - ext.toList.length))
  else file

/-- `fileName` as computed by `readMarkdownFile`:
`path.basename(file, ".mdx") + ".html"`. -/
def outputFileName (file : String) : String :=
  basenameExt file ".mdx" ++ ".html"

/-- The directory filter (line 154): `path.extname(file) === ".mdx"`. -/
def isMdxFile (file : String) : Bool :=
  extname file = ".mdx"

/-- Spec-side description of the ordinary-page output name: the source
file name with its extension replaced by `.html`. -/
def replaceExtByHtml (file : String) : String :=
  String.mk (file.toList.take (file.toList.length - (extname file).toList.length)) ++ ".html"

/-! ## Renderable trees and the static renderer

The compiled page element, the component outputs and the `PageWrapper`
shell are React element trees; `renderToStaticMarkup` serializes them.
`Html.raw` models a `dangerouslySetInnerHTML` child, inserted verbatim;
`Html.text` models an ordinary text child, HTML-escaped on output. -/

inductive Html where
  | elem : String → List (String × String) → List Html → Html
  | text : String → Html
  | raw : String → Html

/-- React's `escapeTextForBrowser` escape of one character. -/
def escapeChar (c : Char) : String :=
  if c = '&' then "&amp;"
  else if c = '<' then "&lt;"
  else if c = '>' then "&gt;"
  else if c = '"' then "&quot;"
  else if c = '\'' then "&#x27;"
  else String.mk [c]

/-- HTML-escape a text or attribute string. -/
def escapeHtml (s : String) : String :=
  String.join (s.toList.map escapeChar)

/-- Serialize an attribute list: ` k="v"` per attribute, values escaped. -/
def renderAttrs : List (String × String) → String
  | [] => ""
  | (k, v) :: rest => " " ++ k ++ "=\x22" ++ escapeHtml v ++ "\x22" ++ renderAttrs rest

/-- Void elements, which `renderToStaticMarkup` closes as `<tag/>`. -/
def voidTags : List String :=
  ["meta", "link", "img", "path", "br", "hr", "input"]

mutual

/-- `renderToStaticMarkup` on one element tree. -/
def renderHtml : Html → String
  | Html.text s => escapeHtml s
  | Html.raw s => s
  | Html.elem tag attrs children =>
    if voidTags.contains tag then "<" ++ tag ++ renderAttrs attrs ++ "/>"
    else "<" ++ tag ++ renderAttrs attrs ++ ">" ++ renderChildren children ++ "</" ++ tag ++ ">"

/-- Serialize a child list by concatenation. -/
def renderChildren : List Html → String
  | [] => ""
  | h :: t => renderHtml h ++ renderChildren t

end

/-! ## Components (`build-site.jsx` lines 36–66) -/

/-- The vector-glyph element the `Icon` component renders (lines 36–40):
an `svg` whose `path` child takes its `d` attribute from the looked-up
record. -/
def iconSvg (d : String) : Html :=
  Html.elem "svg"
    [("xmlns", "http-//www.w3.org/2000/svg"), ("width", "1em"),
     ("height", "1em"), ("viewBox", "0 0 24 24")]
    [Html.elem "path"
      [("d", d), ("fill", "none"), ("strokeWidth", "2"),
       ("stroke", "currentColor"), ("strokeLinecap", "round"),
       ("strokeLinejoin", "round")] []]

/-- The `Icon` component: `icons[props.icon].path` feeds the `d`
attribute of the path element.  When the key is absent, `icons[key]` is
`undefined` and reading `.path` throws a `TypeError` that nothing catches;
`Except.error` models that propagated failure. -/
def Icon (icons : Catalog) (iconName : String) : Except String Html :=
  match icons.find? (fun e => e.1 = iconName) with
  | none => Except.error ("TypeError: cannot read path of undefined icon " ++ iconName)
  | some e => Except.ok (iconSvg e.2.path)

/-- The shared `className` of both `CodeBlock` branches (line 43). -/
def codeBlockClass : String :=
  "p-4 rounded-md bg-gray-900 text-white overflow-auto mb-8 text-sm font-mono"

/-- The `CodeBlock` component (lines 42–56).  `highlight` stands for the
external `hljs.highlight(text, {language}).value` call (language first).
`props.language` is truthy exactly when it is a non-empty string; the
truthy branch injects the highlighter output via `dangerouslySetInnerHTML`,
the falsy branch renders the text as an ordinary (escaped) child. -/
def CodeBlock (highlight : String → String → String)
    (language : Option String) (children : String) : Html :=
  match language with
  | some lang =>
    if lang = "" then Html.elem "pre" [("class", codeBlockClass)] [Html.text children]
    else Html.elem "pre" [("class", codeBlockClass)] [Html.raw (highlight lang children)]
  | none => Html.elem "pre" [("class", codeBlockClass)] [Html.text children]

/-! ## The page shell (`PageWrapper`, lines 68–131) -/

/-- JS string conversion of a metadata value in a template literal:
strings stay themselves, objects render as `[object Object]`. -/
def metaToString : MetaValue → String
  | MetaValue.str s => s
  | MetaValue.icon _ => "[object Object]"

/-- JS truthiness of a metadata value: the empty string is falsy, every
other string and every object is truthy. -/
def metaTruthy : Option MetaValue → Bool
  | none => false
  | some (MetaValue.str s) => !(s = "")
  | some (MetaValue.icon _) => true

/-- The document title (line 92):
`` `${props?.page?.data?.title ? `${props.page.data.title} - ` : ""} josemi/icons ${pkg.version}` ``. -/
def pageTitle (pkg : PkgInfo) (page : Page) : String :=
  (if metaTruthy (getKey page.data "title")
   then metaToString ((getKey page.data "title").getD (MetaValue.str "")) ++ " - "
   else "") ++ " josemi/icons " ++ pkg.version

/-- The fixed head metadata block (lines 71–91). -/
def headMetas : List Html :=
  [Html.elem "meta" [("charSet", "utf-8")] [],
   Html.elem "meta" [("name", "viewport"),
     ("content", "width=device-width, initial-scale=1, shrink-to-fit=no, user-scalable=no")] [],
   Html.elem "meta" [("name", "title"), ("content", "josemi/icons")] [],
   Html.elem "meta" [("name", "description"),
     ("content", "Enhance your projects with beautifully crafted SVG icons.")] [],
   Html.elem "meta" [("property", "og:site_name"), ("content", "josemi/icons")] [],
   Html.elem "meta" [("property", "og:title"), ("content", "josemi/icons")] [],
   Html.elem "meta" [("property", "og:type"), ("content", "website")] [],
   Html.elem "meta" [("property", "og:url"), ("content", "https://icons.josemi.xyz")] [],
   Html.elem "meta" [("property", "og:image"), ("content", "https://icons.josemi.xyz/og.png")] [],
   Html.elem "meta" [("property", "og:image:width"), ("content", "1200")] [],
   Html.elem "meta" [("property", "og:image:height"), ("content", "630")] [],
   Html.elem "meta" [("property", "og:image:alt"), ("content", "josemi/icons")] [],
   Html.elem "meta" [("property", "description"),
     ("content", "Enhance your projects with beautifully crafted SVG icons.")] [],
   Html.elem "meta" [("name", "twitter:card"), ("content", "summary_large_image")] [],
   Html.elem "meta" [("name", "twitter:author"), ("content", "@jmjuanes")] [],
   Html.elem "meta" [("name", "twitter:title"), ("content", "josemi/icons")] [],
   Html.elem "meta" [("name", "twitter:description"),
     ("content", "Enhance your projects with beautifully crafted SVG icons.")] [],
   Html.elem "meta" [("name", "twitter:image"), ("content", "https://icons.josemi.xyz/og.png")] [],
   Html.elem "link" [("rel", "stylesheet"),
     ("href", "https://fonts.googleapis.com/css2?family=Inter:wght@400;500;700;900&display=swap")] [],
   Html.elem "link" [("rel", "stylesheet"), ("href", "./low.css")] [],
   Html.elem "link" [("rel", "stylesheet"), ("href", "./highlight.css")] []]

/-- `PageWrapper` (lines 68–131): the full document frame around the
compiled page `element` — head metadata and title, header with site name,
version badge and repository link, the main content, and the footer with
attribution and the build timestamp. -/
def PageWrapper (pkg : PkgInfo) (buildInfo : BuildInfo) (page : Page) (element : Html) : Html :=
  Html.elem "html" [("lang", "en")]
    [Html.elem "head" []
      (headMetas ++ [Html.elem "title" [] [Html.text (pageTitle pkg page)]]),
     Html.elem "body" [("class", "bg-white m-0 p-0 font-inter text-gray-800 leading-normal")]
      [Html.elem "div" [("class", "border-b-1 border-gray-300 relative")]
        [Html.elem "div" [("class", "w-full maxw-7xl h-20 px-6 mx-auto flex items-center justify-between")]
          [Html.elem "a" [("href", "./index.html"),
             ("class", "flex items-center gap-2 text-gray-800 no-underline")]
            [Html.elem "div" [("class", "font-bold flex items-center")]
              [Html.elem "span" [] [Html.text "josemi/"],
               Html.elem "span" [("class", "text-gray-500")] [Html.text "icons"]],
             Html.elem "div" [("class", "flex items-center font-bold text-2xs bg-gray-200 px-2 py-1 rounded-lg")]
              [Html.elem "span" [] [Html.text ("v" ++ pkg.version)]]],
           Html.elem "div" [("class", "flex flex-row gap-6 items-center")]
            [Html.elem "a" [("href", pkg.repositoryUrl), ("class", "no-underline o-70 hover:o-100")]
              [Html.elem "img" [("class", "w-6 h-6"), ("src", "./github.svg")] []]]]],
       Html.elem "div" [("class", "w-full maxw-7xl mx-auto px-6")] [element],
       Html.elem "div" [("class", "w-full maxw-7xl mx-auto px-6 pt-10 pb-20")]
        [Html.elem "div" [("class", "mb-12 border-t-1 border-gray-300")] [],
         Html.elem "div" [("class", "text-center text-sm mb-2")]
          [Html.text "Designed by ",
           Html.elem "a" [("href", "https://josemi.xyz"),
             ("class", "no-underline text-gray-800 hover:text-gray-700 font-bold")]
            [Html.text "Josemi"],
           Html.text ". The source code is available on ",
           Html.elem "a" [("href", pkg.repositoryUrl),
             ("class", "no-underline text-gray-800 hover:text-gray-700 font-bold")]
            [Html.text "GitHub"],
           Html.text "."],
         Html.elem "div" [("class", "text-center text-sm")]
          [Html.elem "div" []
            [Html.text ("Last built on " ++ buildInfo.timeFormatted ++ ".")]]]]]

/-- Shell-wrap then serialize: the per-page render step of `buildPromises`
(lines 180–197), after the page body has been compiled to `element`. -/
def renderPage (pkg : PkgInfo) (buildInfo : BuildInfo) (page : Page) (element : Html) : String :=
  renderHtml (PageWrapper pkg buildInfo page element)

/-! ## Concrete fixtures used by witnesses and counterexamples -/

/-- A template page, as loaded from a file `[icon].mdx`. -/
def tplPageEx : Page :=
  { data := [("layout", MetaValue.str "icon")]
    content := "# icon page body"
    fileName := "[icon].html" }

/-- A second template-marked page, for the multiple-template scenario. -/
def tplPage2Ex : Page :=
  { data := [("layout", MetaValue.str "other")]
    content := "# other template body"
    fileName := "[other].html" }

/-- An ordinary page, as loaded from `index.mdx`. -/
def ordPageEx : Page :=
  { data := [("title", MetaValue.str "Home")]
    content := "# Home"
    fileName := "index.html" }

/-- An ordinary page whose output name collides with a derived page. -/
def ordStarEx : Page :=
  { data := []
    content := "# The star page"
    fileName := "star.html" }

/-- A one-entry catalog with the key `star`. -/
def catEx1 : Catalog := [("star", { path := "M12 2l3 7" })]

/-- A concrete package descriptor. -/
def pkgEx : PkgInfo :=
  { version := "4.7.0", repositoryUrl := "https://github.com/jmjuanes/fonticon" }

/-- A concrete build-info value. -/
def buildInfoEx : BuildInfo := { timeFormatted := "Friday, May 3, 2024 at 10:00:00 AM GMT+1" }

/-- A concrete syntax highlighter standing in for `hljs.highlight`. -/
def hlEx (lang text : String) : String :=
  "<span class=\x22hljs-" ++ lang ++ "\x22>" ++ text ++ "</span>"

/-! ## Association-list lemmas for the metadata merge -/

theorem getKey_nil (k : String) : getKey [] k = none := rfl

theorem getKey_cons (e : String × MetaValue) (l : List (String × MetaValue)) (k : String) :
    getKey (e :: l) k = if e.1 = k then some e.2 else getKey l k := by
  by_cases h : e.1 = k <;> simp [getKey, List.find?_cons, h]

theorem getKey_setKey_self (d : List (String × MetaValue)) (k : String) (v : MetaValue) :
    getKey (setKey d k v) k = some v := by
  induction d with
  | nil => simp [setKey, getKey_cons]
  | cons e rest ih =>
    by_cases h : e.1 = k
    · simp [setKey, h, getKey_cons]
    · simp [setKey, h, getKey_cons, ih]

theorem getKey_setKey_ne (d : List (String × MetaValue)) (k : String) (v : MetaValue)
    (k' : String) (h : k' ≠ k) : getKey (setKey d k v) k' = getKey d k' := by
  induction d with
  | nil => simp [setKey, getKey_cons, getKey_nil, Ne.symm h]
  | cons e rest ih =>
    by_cases he : e.1 = k
    · have he' : ¬ e.1 = k' := by rw [he]; exact Ne.symm h
      simp [setKey, he, getKey_cons, Ne.symm h, he']
    · by_cases he' : e.1 = k'
      · simp only [setKey]
        rw [if_neg he, getKey_cons, if_pos he', getKey_cons, if_pos he']
      · simp [setKey, he, getKey_cons, he', ih]

/-! ## Claims C3 and C4: the derived page's metadata and body -/

/-- Claim C3: a derived page's metadata maps `title` to the catalog entry's
name and `icon` to the entry's record, while every other key of the
template's metadata survives with its original value (entry-derived keys
win on collision, since `setKey` overwrites). -/
theorem derived_metadata_override (tp : Page) (name : String) (rec : IconRecord) :
    getKey (derivePage tp name rec).data "title" = some (MetaValue.str name) ∧
    getKey (derivePage tp name rec).data "icon" = some (MetaValue.icon rec) ∧
    ∀ k, k ≠ "title" → k ≠ "icon" →
      getKey (derivePage tp name rec).data k = getKey tp.data k := by
  refine ⟨?_, ?_, ?_⟩
  · rw [derivePage]
    rw [getKey_setKey_ne _ _ _ _ (by decide)]
    exact getKey_setKey_self _ _ _
  · exact getKey_setKey_self _ _ _
  · intro k hktitle hkicon
    rw [derivePage]
    rw [getKey_setKey_ne _ _ _ _ hkicon, getKey_setKey_ne _ _ _ _ hktitle]

/-- Witness for C3 at a concrete template page, entry and third key. -/
theorem derived_metadata_override_witness :
    getKey (derivePage tplPageEx "star" { path := "M12 2l3 7" }).data "title"
      = some (MetaValue.str "star") ∧
    getKey (derivePage tplPageEx "star" { path := "M12 2l3 7" }).data "layout"
      = getKey tplPageEx.data "layout" :=
  ⟨(derived_metadata_override tplPageEx "star" { path := "M12 2l3 7" }).1,
   (derived_metadata_override tplPageEx "star" { path := "M12 2l3 7" }).2.2 "layout"
     (by decide) (by decide)⟩

/-- Claim C4: every derived page's body is the template page's body,
reused unmodified (`content: templatePage.content`). -/
theorem derived_body_identity (tp : Page) (name : String) (rec : IconRecord) :
    (derivePage tp name rec).content = tp.content := rfl

/-! ## Expansion lemmas -/

theorem length_filter_not_add_countP {α : Type} (p : α → Bool) (l : List α) :
    (l.filter (fun a => !p a)).length + l.countP p = l.length := by
  induction l with
  | nil => simp
  | cons a t ih =>
    by_cases h : p a <;> simp [List.filter_cons, List.countP_cons, h] <;> omega

theorem find?_first_split {α : Type} {p : α → Bool} :
    ∀ {l : List α} {x : α}, l.find? p = some x →
      ∃ l₁ l₂, l = l₁ ++ x :: l₂ ∧ ∀ a ∈ l₁, p a = false := by
  intro l
  induction l with
  | nil => intro x h; simp at h
  | cons a t ih =>
    intro x h
    rw [List.find?_cons] at h
    cases hpa : p a with
    | true =>
      rw [hpa] at h
      simp only [cond_true, Option.some.injEq] at h
      exact ⟨[], t, by simp [h], by simp⟩
    | false =>
      rw [hpa] at h
      simp only [cond_false] at h
      obtain ⟨l₁, l₂, hl, hall⟩ := ih h
      refine ⟨a :: l₁, l₂, by simp [hl], ?_⟩
      intro b hb
      rcases List.mem_cons.mp hb with hb | hb
      · rw [hb]; exact hpa
      · exact hall b hb

/-! ## Claim C1: expansion page count -/

/-- Claim C1 counterexample: with a catalog of `N = 1` entries and a loaded
page set of exactly one template page plus `M = 1` ordinary pages, the
claim predicts `M - 1 + N = 1` output pages, but the expander produces
`M + N = 2` (the template alone is removed from the `M + 1` loaded pages). -/
theorem expansion_count_claim_false :
    ¬ ((expandPages catEx1 [tplPageEx, ordPageEx]).map List.length = some (1 - 1 + 1)) := by
  decide

/-- Claim C1 (amended): for a catalog with `N` entries and a loaded page
set containing exactly one template page plus `M` ordinary pages, the
final output page set has exactly `M + N` pages. -/
theorem expansion_count (icons : Catalog) (pages : List Page) (M N : Nat)
    (h1 : pages.countP isTemplate = 1) (h2 : pages.length = M + 1)
    (h3 : icons.length = N) :
    (expandPages icons pages).map List.length = some (M + N) := by
  have hpos : 0 < pages.countP isTemplate := by omega
  rw [List.countP_pos_iff] at hpos
  obtain ⟨tp0, htp0, hptp0⟩ := hpos
  have hsome : (pages.find? isTemplate).isSome :=
    List.find?_isSome.mpr ⟨tp0, htp0, hptp0⟩
  obtain ⟨tp, htp⟩ := Option.isSome_iff_exists.mp hsome
  rw [expandPages, htp]
  simp only [Option.map_some', Option.some.injEq, List.length_append, List.length_map]
  have hfl := length_filter_not_add_countP isTemplate pages
  omega

/-- Witness for the amended C1 at a concrete build (`M = 1`, `N = 1`). -/
theorem expansion_count_witness :
    (expandPages catEx1 [tplPageEx, ordPageEx]).map List.length = some (1 + 1) :=
  expansion_count catEx1 [tplPageEx, ordPageEx] 1 1 (by decide) (by decide) (by decide)

/-! ## Claim C2: uniqueness of output names -/

/-- Claim C2 counterexample: an ordinary page loaded from `star.mdx`
together with a catalog entry named `star` gives the final page set
`["star.html", "star.html"]` — the outputName values are not unique, and
the expander performs no collision check. -/
theorem output_names_unique_claim_false :
    (expandPages catEx1 [tplPageEx, ordStarEx]).map (fun out => out.map Page.fileName)
      = some ["star.html", "star.html"] ∧
    ¬ (["star.html", "star.html"] : List String).Nodup := by
  constructor
  · decide
  · decide

/-- Claim C2 (amended): outputName values are unique across the final page
set provided no ordinary page's outputName coincides with a derived
`entryName.html` name (and the ordinary names and catalog-derived names
are each duplicate-free); the code itself performs no such check, so a
collision produces a duplicate. -/
theorem output_names_unique (icons : Catalog) (pages : List Page) (tp : Page)
    (h : pages.find? isTemplate = some tp)
    (h1 : ((pages.filter (fun p => !isTemplate p)).map Page.fileName).Nodup)
    (h2 : (icons.map (fun e => e.1 ++ ".html")).Nodup)
    (h3 : ∀ n ∈ (pages.filter (fun p => !isTemplate p)).map Page.fileName,
          n ∉ icons.map (fun e => e.1 ++ ".html")) :
    ∃ out, expandPages icons pages = some out ∧ (out.map Page.fileName).Nodup := by
  refine ⟨_, by rw [expandPages, h], ?_⟩
  rw [List.map_append, List.map_map]
  have hmap : (icons.map (Page.fileName ∘ fun e => derivePage tp e.1 e.2))
      = icons.map (fun e => e.1 ++ ".html") := rfl
  rw [hmap]
  exact List.Nodup.append h1 h2 (List.disjoint_left.mpr h3)

/-- Witness for the amended C2 at a concrete collision-free build. -/
theorem output_names_unique_witness :
    ∃ out, expandPages catEx1 [tplPageEx, ordPageEx] = some out ∧
      (out.map Page.fileName).Nodup :=
  output_names_unique catEx1 [tplPageEx, ordPageEx] tplPageEx
    (by decide) (by decide) (by decide) (by decide)

/-! ## Claim C9: deterministic ordering of the final page list -/

/-- Claim C9: the final page list is the loaded non-template pages, in
their loaded order (the filtered list is a sublist of the loaded list,
hence order-preserving), followed by the derived pages in the catalog's
declared key order (their names are the catalog keys, in order, suffixed
with `.html`). -/
theorem final_page_order (icons : Catalog) (pages : List Page) (tp : Page)
    (h : pages.find? isTemplate = some tp) :
    expandPages icons pages
      = some (pages.filter (fun p => !isTemplate p)
              ++ icons.map (fun e => derivePage tp e.1 e.2)) ∧
    (pages.filter (fun p => !isTemplate p)).Sublist pages ∧
    (icons.map (fun e => derivePage tp e.1 e.2)).map Page.fileName
      = icons.map (fun e => e.1 ++ ".html") := by
  refine ⟨by rw [expandPages, h], List.filter_sublist _, ?_⟩
  rw [List.map_map]
  exact rfl

/-- Witness for C9 at a concrete build. -/
theorem final_page_order_witness :
    expandPages catEx1 [tplPageEx, ordPageEx]
      = some ([tplPageEx, ordPageEx].filter (fun p => !isTemplate p)
              ++ catEx1.map (fun e => derivePage tplPageEx e.1 e.2)) ∧
    ([tplPageEx, ordPageEx].filter (fun p => !isTemplate p)).Sublist
      [tplPageEx, ordPageEx] ∧
    (catEx1.map (fun e => derivePage tplPageEx e.1 e.2)).map Page.fileName
      = catEx1.map (fun e => e.1 ++ ".html") :=
  final_page_order catEx1 [tplPageEx, ordPageEx] tplPageEx (by decide)

/-! ## Claim C10: every bracket-marked page is removed, the first one
feeds the expansion -/

/-- Claim C10: every loaded page whose fileName starts with `[` is removed
from the kept ordinary segment (even when several exist), the page feeding
the expansion is the first bracket-marked page in loaded order, the derived
pages are all built from that first one, and — as long as no catalog entry
itself yields a bracket-named derived page — no page of the final output
set is bracket-marked at all. -/
theorem template_exclusion (icons : Catalog) (pages : List Page) (tp : Page)
    (h : pages.find? isTemplate = some tp) :
    expandPages icons pages
      = some (pages.filter (fun p => !isTemplate p)
              ++ icons.map (fun e => derivePage tp e.1 e.2)) ∧
    (∀ p, p ∈ pages → isTemplate p = true →
      p ∉ pages.filter (fun q => !isTemplate q)) ∧
    isTemplate tp = true ∧
    (∃ l₁ l₂, pages = l₁ ++ tp :: l₂ ∧ ∀ q ∈ l₁, isTemplate q = false) ∧
    ((∀ e ∈ icons, isTemplate (derivePage tp e.1 e.2) = false) →
      ∀ p ∈ pages.filter (fun q => !isTemplate q)
             ++ icons.map (fun e => derivePage tp e.1 e.2),
        isTemplate p = false) := by
  refine ⟨by rw [expandPages, h], ?_, List.find?_some h, find?_first_split h, ?_⟩
  · intro p _ htp hmem
    have := (List.mem_filter.mp hmem).2
    rw [htp] at this
    simp at this
  · intro hkeys p hp
    rcases List.mem_append.mp hp with h1 | h2
    · have := (List.mem_filter.mp h1).2
      simpa using this
    · obtain ⟨e, he, rfl⟩ := List.mem_map.mp h2
      exact hkeys e he

/-! ## Claim C5: output-name computation -/

theorem extTail_suffix : ∀ {l e : List Char}, extTail l = some e → e <:+ l := by
  intro l
  induction l with
  | nil => intro e h; simp [extTail] at h
  | cons c rest ih =>
    intro e h
    unfold extTail at h
    cases hrest : extTail rest with
    | some e' =>
      rw [hrest] at h
      injection h with h'
      subst h'
      exact (ih hrest).trans (List.suffix_cons c rest)
    | none =>
      rw [hrest] at h
      by_cases hc : c = '.'
      · rw [if_pos hc] at h
        injection h with h'
        rw [← h']
      · rw [if_neg hc] at h
        exact absurd h (by simp)

/-- A file name whose Node extension is `.mdx` is not itself `.mdx` and
ends with the four characters `.mdx`. -/
theorem extname_eq_mdx {f : String} (h : extname f = ".mdx") :
    f ≠ ".mdx" ∧ ".mdx".toList <:+ f.toList := by
  constructor
  · intro hf; rw [hf] at h; exact absurd h (by decide)
  · cases hl : f.toList with
    | nil => rw [extname, hl] at h; exact absurd h (by decide)
    | cons c rest =>
      rw [extname, hl] at h
      simp only [] at h
      by_cases hdd : c :: rest = ['.', '.']
      · rw [if_pos hdd] at h; exact absurd h (by decide)
      · rw [if_neg hdd] at h
        cases he : extTail rest with
        | none => rw [he] at h; exact absurd h (by decide)
        | some e =>
          rw [he] at h
          have hdata : e = ".mdx".toList := congrArg String.data h
          have hsuf := extTail_suffix he
          rw [hdata] at hsuf
          exact hsuf.trans (List.suffix_cons c rest)

/-- Claim C5: a derived page's outputName is exactly `entryName.html`, and
an ordinary loaded page's outputName (for a file that passed the `.mdx`
extension filter) is the file's base name with its extension replaced by
`.html`. -/
theorem output_naming (tp : Page) (name : String) (rec : IconRecord) (f : String)
    (h : isMdxFile f = true) :
    (derivePage tp name rec).fileName = name ++ ".html" ∧
    outputFileName f = replaceExtByHtml f := by
  refine ⟨rfl, ?_⟩
  have hx : extname f = ".mdx" := by
    simpa [isMdxFile] using h
  obtain ⟨hne, hsuf⟩ := extname_eq_mdx hx
  rw [outputFileName, replaceExtByHtml, basenameExt,
    if_pos ⟨hne, List.isSuffixOf_iff_suffix.mpr hsuf⟩, hx]

/-- Witness for C5 at the template page, the `star` entry and the source
file `index.mdx`. -/
theorem output_naming_witness :
    (derivePage tplPageEx "star" { path := "M12 2l3 7" }).fileName = "star" ++ ".html" ∧
    outputFileName "index.mdx" = replaceExtByHtml "index.mdx" :=
  output_naming tplPageEx "star" { path := "M12 2l3 7" } "index.mdx" (by decide)

/-! ## Claim C6: icon lookup -/

/-- Claim C6: when the requested key is absent from the icon table the
`Icon` component fails with a propagated lookup error — not a silently
empty glyph — so that page's build fails; when the key is present it
renders the vector-glyph element whose path data is the table entry's
`path`. -/
theorem icon_lookup (icons : Catalog) (key : String) :
    (icons.find? (fun e => e.1 = key) = none →
      ∃ msg, Icon icons key = Except.error msg) ∧
    (∀ n r, icons.find? (fun e => e.1 = key) = some (n, r) →
      Icon icons key = Except.ok (iconSvg r.path)) := by
  constructor
  · intro h
    exact ⟨_, by rw [Icon, h]⟩
  · intro n r h
    rw [Icon, h]

/-- Witness for C6: in the one-entry catalog, the absent key `bolt` yields
a propagated error and the present key `star` yields the glyph with that
entry's path data. -/
theorem icon_lookup_witness :
    (∃ msg, Icon catEx1 "bolt" = Except.error msg) ∧
    Icon catEx1 "star" = Except.ok (iconSvg "M12 2l3 7") :=
  ⟨(icon_lookup catEx1 "bolt").1 (by decide),
   (icon_lookup catEx1 "star").2 "star" { path := "M12 2l3 7" } (by decide)⟩

/-! ## Claim C7: code-block branches -/

theorem renderHtml_raw (s : String) : renderHtml (Html.raw s) = s := by
  rw [renderHtml]

theorem renderHtml_text (s : String) : renderHtml (Html.text s) = escapeHtml s := by
  rw [renderHtml]

theorem renderHtml_pre (a : List (String × String)) (c : Html) :
    renderHtml (Html.elem "pre" a [c]) =
      "<" ++ "pre" ++ renderAttrs a ++ ">" ++ (renderHtml c ++ "") ++ "</" ++ "pre" ++ ">" := by
  rw [renderHtml]
  rw [if_neg (by decide)]
  rw [renderChildren, renderChildren]

set_option maxRecDepth 4000 in
/-- Claim C7: with a (truthy) language tag the code-block component
renders the highlighter's markup injected raw; with no language tag it
renders the text as an ordinary escaped child, unhighlighted; and whenever
the highlighter's output differs from the escaped verbatim text, the two
branches serialize to different markup for the same text. -/
theorem codeblock_branches (hl : String → String → String) (lang text : String)
    (hlang : lang ≠ "") :
    CodeBlock hl (some lang) text
      = Html.elem "pre" [("class", codeBlockClass)] [Html.raw (hl lang text)] ∧
    CodeBlock hl none text
      = Html.elem "pre" [("class", codeBlockClass)] [Html.text text] ∧
    (hl lang text ≠ escapeHtml text →
      renderHtml (CodeBlock hl (some lang) text)
        ≠ renderHtml (CodeBlock hl none text)) := by
  refine ⟨by rw [CodeBlock, if_neg hlang], rfl, ?_⟩
  intro hdiff heq
  apply hdiff
  rw [CodeBlock, if_neg hlang] at heq
  rw [CodeBlock] at heq
  rw [renderHtml_pre, renderHtml_pre, renderHtml_raw, renderHtml_text] at heq
  have hdata := congrArg String.data heq
  simp only [String.data_append, List.append_assoc] at hdata
  have h1 := List.append_cancel_left hdata
  have h2 := List.append_cancel_left h1
  have h3 := List.append_cancel_left h2
  have h4 := List.append_cancel_left h3
  exact String.ext (List.append_cancel_right h4)

set_option maxRecDepth 4000 in
/-- Witness for C7 with a concrete highlighter, language and text. -/
theorem codeblock_branches_witness :
    CodeBlock hlEx (some "js") "let x"
      = Html.elem "pre" [("class", codeBlockClass)] [Html.raw (hlEx "js" "let x")] ∧
    renderHtml (CodeBlock hlEx (some "js") "let x")
      ≠ renderHtml (CodeBlock hlEx none "let x") :=
  ⟨(codeblock_branches hlEx "js" "let x" (by decide)).1,
   (codeblock_branches hlEx "js" "let x" (by decide)).2.2 (by decide)⟩

/-! ## Claim C8: deterministic rendering -/

/-- Claim C8: shell-wrapping and serializing the same compiled tree twice
with the same BuildInfo (and the same page and package data) produces
identical markup strings — the shell and renderer are pure functions with
no hidden state in the embedding. -/
theorem render_deterministic (pkg : PkgInfo) (b₁ b₂ : BuildInfo) (p₁ p₂ : Page)
    (e₁ e₂ : Html) (hb : b₁ = b₂) (hp : p₁ = p₂) (he : e₁ = e₂) :
    renderPage pkg b₁ p₁ e₁ = renderPage pkg b₂ p₂ e₂ := by
  rw [hb, hp, he]

/-- Witness for C8 at a concrete page, element and build info. -/
theorem render_deterministic_witness :
    renderPage pkgEx buildInfoEx ordPageEx (Html.text "Home body")
      = renderPage pkgEx buildInfoEx ordPageEx (Html.text "Home body") :=
  render_deterministic pkgEx buildInfoEx buildInfoEx ordPageEx ordPageEx
    (Html.text "Home body") (Html.text "Home body") rfl rfl rfl

/-- Witness for C10 on a page list with two bracket-marked pages: both are
excluded from the kept segment, the first (`[icon].html`) is the one the
expansion uses, and no page of the final output set is bracket-marked. -/
theorem template_exclusion_witness :
    expandPages catEx1 [tplPageEx, tplPage2Ex, ordPageEx]
      = some ([tplPageEx, tplPage2Ex, ordPageEx].filter (fun p => !isTemplate p)
              ++ catEx1.map (fun e => derivePage tplPageEx e.1 e.2)) ∧
    (∀ p, p ∈ [tplPageEx, tplPage2Ex, ordPageEx] → isTemplate p = true →
      p ∉ [tplPageEx, tplPage2Ex, ordPageEx].filter (fun q => !isTemplate q)) ∧
    (∀ p ∈ [tplPageEx, tplPage2Ex, ordPageEx].filter (fun q => !isTemplate q)
           ++ catEx1.map (fun e => derivePage tplPageEx e.1 e.2),
      isTemplate p = false) :=
  ⟨(template_exclusion catEx1 [tplPageEx, tplPage2Ex, ordPageEx] tplPageEx (by decide)).1,
   (template_exclusion catEx1 [tplPageEx, tplPage2Ex, ordPageEx] tplPageEx (by decide)).2.1,
   (template_exclusion catEx1 [tplPageEx, tplPage2Ex, ordPageEx] tplPageEx
      (by decide)).2.2.2.2 (by decide)⟩

end Fonticon
